import Mathlib

/-!
Verification of the AI-provider orchestration and response-normalization
pipeline of the user-story-map-generator repository.

The TypeScript source is shallowly embedded:
* parsed JSON values (the result of `JSON.parse`) become the inductive `JSON`;
  JavaScript property access, truthiness and the `x || d` idiom are modelled
  by `getProp`, `truthy` and `jsOr`;
* `GeminiService.validateAndTransformResponse` becomes
  `validateAndTransformResponse` (fallible: calling `.map` on a non-array
  value or accessing a property of `null` throws a `TypeError` at runtime,
  modelled as `Except.error`);
* the JSON-span extraction `content.match(/\x7b[\s\S]*\x7d/)` becomes
  `jsonMatchGreedy`;
* `AIService.generateMockStoryMap` and the four static templates are
  transcribed verbatim;
* `AIService.convertYAMLToStoryMap` becomes `convertYAMLToStoryMap`,
  parameterized by the stream of values produced by the successive
  `generateId()` calls (the source draws them from `Math.random()`) and by
  the conversion-time timestamp;
* `AIService.generateStoryMap` becomes `generateStoryMap`, parameterized by
  the outcome (result or thrown error) of each provider client call.
-/

/-- A parsed JSON value, the runtime shape produced by `JSON.parse`.
Numbers are modelled by integers (no claim depends on numeric values). -/
inductive JSON where
  | null
  | bool (b : Bool)
  | num (n : Int)
  | str (s : String)
  | arr (elems : List JSON)
  | obj (fields : List (String × JSON))

/-- JavaScript truthiness of a parsed JSON value: `null`, `false`, `0` and
the empty string are falsy; arrays and objects are always truthy. -/
def truthy : JSON → Bool
  | JSON.null => false
  | JSON.bool b => b
  | JSON.num n => n != 0
  | JSON.str s => s != ""
  | JSON.arr _ => true
  | JSON.obj _ => true

/-- Duplicate-key lookup with the `JSON.parse` semantics: the last
occurrence of a key wins. -/
def lookupLast (fields : List (String × JSON)) (name : String) : Option JSON :=
  match fields with
  | [] => none
  | (k, v) :: rest =>
    match lookupLast rest name with
    | some r => some r
    | none => if k == name then some v else none

/-- JavaScript property access `v.name` on a non-`null` parsed JSON value:
a field of an object, `undefined` (here `none`) otherwise. Access on `null`
throws and is handled separately by each caller. -/
def getProp : JSON → String → Option JSON
  | JSON.obj fields, name => lookupLast fields name
  | _, _ => none

/-- The JavaScript default idiom `v || d` applied to a possibly-`undefined`
property value: keeps `v` when it is present and truthy, else `d`. -/
def jsOr (v : Option JSON) (d : JSON) : JSON :=
  match v with
  | some j => if truthy j then j else d
  | none => d

/-- Message of the runtime `TypeError` raised by `.map` on a non-array or by
property access on `null`. -/
def typeErrorMsg : String := "TypeError"

/-- Message thrown by `validateAndTransformResponse` when the parsed object
does not minimally conform. -/
def invalidResponseMsg : String := "Invalid response structure from Gemini API"

/-- `Except`-valued map over a list, stopping at the first error (the
behaviour of `Array.prototype.map` when the callback throws). -/
def mapExc (f : JSON → Except String α) : List JSON → Except String (List α)
  | [] => Except.ok []
  | x :: xs =>
    match f x with
    | Except.error e => Except.error e
    | Except.ok y =>
      match mapExc f xs with
      | Except.error e => Except.error e
      | Except.ok ys => Except.ok (y :: ys)

/-- Calling `.map f` on an arbitrary JavaScript value: maps over an array,
throws `TypeError` on anything else. -/
def jsMapArr (v : JSON) (f : JSON → Except String α) : Except String (List α) :=
  match v with
  | JSON.arr xs => mapExc f xs
  | _ => Except.error typeErrorMsg

/-- The array test `Array.isArray(v)` combined with extraction of the
elements, for a possibly-`undefined` property value. -/
def isArrayOpt : Option JSON → Option (List JSON)
  | some (JSON.arr xs) => some xs
  | _ => none

/-- Runtime shape of a task produced by the normalization pass. Fields hold
arbitrary JSON values: the source annotates them as strings but performs no
runtime check beyond the `||` defaults. -/
structure NTask where
  title : JSON
  description : JSON
  priority : JSON
  effort : JSON
  acceptance_criteria : List JSON

/-- Runtime shape of a feature produced by the normalization pass. -/
structure NFeature where
  title : JSON
  description : JSON
  tasks : List NTask

/-- Runtime shape of an epic produced by the normalization pass. -/
structure NEpic where
  title : JSON
  description : JSON
  features : List NFeature

/-- Runtime shape of the whole normalized story map. -/
structure NStoryMap where
  title : JSON
  description : JSON
  epics : List NEpic

/-- Task branch of `GeminiService.validateAndTransformResponse`: every
string field defaults through `||`, `acceptance_criteria` through an
explicit `Array.isArray` test. Property access on `null` throws. -/
def transformTask (task : JSON) : Except String NTask :=
  match task with
  | JSON.null => Except.error typeErrorMsg
  | _ =>
    Except.ok
      { title := jsOr (getProp task "title") (JSON.str "Untitled Task")
        description := jsOr (getProp task "description") (JSON.str "")
        priority := jsOr (getProp task "priority") (JSON.str "medium")
        effort := jsOr (getProp task "effort") (JSON.str "2 days")
        acceptance_criteria :=
          match isArrayOpt (getProp task "acceptance_criteria") with
          | some xs => xs
          | none => [JSON.str "Acceptance criteria not specified"] }

/-- Feature branch of `GeminiService.validateAndTransformResponse`:
`(feature.tasks || []).map(...)`. -/
def transformFeature (feature : JSON) : Except String NFeature :=
  match feature with
  | JSON.null => Except.error typeErrorMsg
  | _ =>
    match jsMapArr (jsOr (getProp feature "tasks") (JSON.arr [])) transformTask with
    | Except.error e => Except.error e
    | Except.ok ts =>
      Except.ok
        { title := jsOr (getProp feature "title") (JSON.str "Untitled Feature")
          description := jsOr (getProp feature "description") (JSON.str "")
          tasks := ts }

/-- Epic branch of `GeminiService.validateAndTransformResponse`:
`(epic.features || []).map(...)`. -/
def transformEpic (epic : JSON) : Except String NEpic :=
  match epic with
  | JSON.null => Except.error typeErrorMsg
  | _ =>
    match jsMapArr (jsOr (getProp epic "features") (JSON.arr [])) transformFeature with
    | Except.error e => Except.error e
    | Except.ok fs =>
      Except.ok
        { title := jsOr (getProp epic "title") (JSON.str "Untitled Epic")
          description := jsOr (getProp epic "description") (JSON.str "")
          features := fs }

/-- `GeminiService.validateAndTransformResponse`: rejects a parsed object
whose `title` or `description` is falsy or whose `epics` is not an array,
then maps the epic/feature/task transforms over the tree. -/
def validateAndTransformResponse (response : JSON) : Except String NStoryMap :=
  match response with
  | JSON.null => Except.error typeErrorMsg
  | _ =>
    if truthy (jsOr (getProp response "title") JSON.null) = false then
      Except.error invalidResponseMsg
    else if truthy (jsOr (getProp response "description") JSON.null) = false then
      Except.error invalidResponseMsg
    else
      match isArrayOpt (getProp response "epics") with
      | none => Except.error invalidResponseMsg
      | some epics =>
        match mapExc transformEpic epics with
        | Except.error e => Except.error e
        | Except.ok es =>
          Except.ok
            { title := jsOr (getProp response "title") JSON.null
              description := jsOr (getProp response "description") JSON.null
              epics := es }

/-- The opening-brace character, written via its code point. -/
def lbrace : Char := Char.ofNat 123

/-- The closing-brace character, written via its code point. -/
def rbrace : Char := Char.ofNat 125

/-- JSON whitespace skipping, as in `JSON.parse`. -/
def skipWs : List Char → List Char
  | [] => []
  | c :: cs =>
    if c == ' ' || c == '\t' || c == '\n' || c == '\r' then skipWs cs else c :: cs

/-- Consume a maximal run of decimal digits. -/
def takeDigits (cs : List Char) : List Char × List Char :=
  (cs.takeWhile Char.isDigit, cs.dropWhile Char.isDigit)

/-- Decimal value of a digit run. -/
def digitsToNat (ds : List Char) : Nat :=
  ds.foldl (fun a c => a * 10 + (c.toNat - 48)) 0

/-- Parse a JSON number token. The numeric value is approximated by its
integer part (no claim depends on numeric values); fraction and exponent
syntax is consumed as `JSON.parse` does. -/
def parseNumber (cs : List Char) : Option (JSON × List Char) :=
  let signed : Bool × List Char :=
    match cs with
    | c :: rest => if c == '-' then (true, rest) else (false, cs)
    | [] => (false, [])
  match takeDigits signed.2 with
  | ([], _) => none
  | (ds, cs2) =>
    let cs3 :=
      match cs2 with
      | c :: rest =>
        if c == '.' then
          match takeDigits rest with
          | ([], _) => cs2
          | (_, r) => r
        else cs2
      | [] => cs2
    let cs4 :=
      match cs3 with
      | c :: rest =>
        if c == 'e' || c == 'E' then
          let rest2 :=
            match rest with
            | d :: r2 => if d == '+' || d == '-' then r2 else rest
            | [] => rest
          match takeDigits rest2 with
          | ([], _) => cs3
          | (_, r) => r
        else cs3
      | [] => cs3
    let n : Int := Int.ofNat (digitsToNat ds)
    some (JSON.num (if signed.1 then -n else n), cs4)

/-- Parse the body of a JSON string literal after the opening quote,
handling the escape sequences accepted by `JSON.parse`. -/
def parseStringBody (fuel : Nat) (cs : List Char) (acc : List Char) :
    Option (String × List Char) :=
  match fuel, cs with
  | 0, _ => none
  | _, [] => none
  | Nat.succ fuel, c :: rest =>
    if c == '"' then some (⟨acc.reverse⟩, rest)
    else if c == '\\' then
      match rest with
      | [] => none
      | e :: rest2 =>
        if e == '"' then parseStringBody fuel rest2 ('"' :: acc)
        else if e == '\\' then parseStringBody fuel rest2 ('\\' :: acc)
        else if e == '/' then parseStringBody fuel rest2 ('/' :: acc)
        else if e == 'n' then parseStringBody fuel rest2 ('\n' :: acc)
        else if e == 't' then parseStringBody fuel rest2 ('\t' :: acc)
        else if e == 'r' then parseStringBody fuel rest2 ('\r' :: acc)
        else if e == 'b' then parseStringBody fuel rest2 (Char.ofNat 8 :: acc)
        else if e == 'f' then parseStringBody fuel rest2 (Char.ofNat 12 :: acc)
        else if e == 'u' then
          match rest2 with
          | h1 :: h2 :: h3 :: h4 :: rest3 =>
            let hexVal : Char → Option Nat := fun h =>
              if h.isDigit then some (h.toNat - 48)
              else if 'a' ≤ h && h ≤ 'f' then some (h.toNat - 87)
              else if 'A' ≤ h && h ≤ 'F' then some (h.toNat - 55)
              else none
            match hexVal h1, hexVal h2, hexVal h3, hexVal h4 with
            | some a, some b, some c2, some d =>
              parseStringBody fuel rest3
                (Char.ofNat (((a * 16 + b) * 16 + c2) * 16 + d) :: acc)
            | _, _, _, _ => none
          | _ => none
        else none
    else parseStringBody fuel rest (c :: acc)

mutual

/-- Recursive-descent parser for a JSON value, modelling `JSON.parse`.
Fuel strictly decreases on every recursive call. -/
def parseJSONValue : Nat → List Char → Option (JSON × List Char)
  | 0, _ => none
  | Nat.succ fuel, cs =>
    match skipWs cs with
    | [] => none
    | c :: rest =>
      if c == 'n' then
        match rest with
        | 'u' :: 'l' :: 'l' :: r => some (JSON.null, r)
        | _ => none
      else if c == 't' then
        match rest with
        | 'r' :: 'u' :: 'e' :: r => some (JSON.bool true, r)
        | _ => none
      else if c == 'f' then
        match rest with
        | 'a' :: 'l' :: 's' :: 'e' :: r => some (JSON.bool false, r)
        | _ => none
      else if c == '"' then
        match parseStringBody (rest.length + 1) rest [] with
        | some (s, r) => some (JSON.str s, r)
        | none => none
      else if c == '[' then
        match skipWs rest with
        | ']' :: r => some (JSON.arr [], r)
        | cs2 =>
          match parseJSONValue fuel cs2 with
          | none => none
          | some (v, r) =>
            match parseArrTail fuel r with
            | some (vs, r2) => some (JSON.arr (v :: vs), r2)
            | none => none
      else if c == lbrace then
        match skipWs rest with
        | c2 :: r =>
          if c2 == rbrace then some (JSON.obj [], r)
          else
            match parseObjMember fuel (c2 :: r) with
            | none => none
            | some (kv, r2) =>
              match parseObjTail fuel r2 with
              | some (kvs, r3) => some (JSON.obj (kv :: kvs), r3)
              | none => none
        | [] => none
      else if c == '-' || c.isDigit then parseNumber (c :: rest)
      else none

/-- Elements of an array after the first one: `, value`* then `]`. -/
def parseArrTail : Nat → List Char → Option (List JSON × List Char)
  | 0, _ => none
  | Nat.succ fuel, cs =>
    match skipWs cs with
    | ']' :: r => some ([], r)
    | ',' :: r =>
      match parseJSONValue fuel r with
      | none => none
      | some (v, r2) =>
        match parseArrTail fuel r2 with
        | some (vs, r3) => some (v :: vs, r3)
        | none => none
    | _ => none

/-- One `"key": value` member of an object. -/
def parseObjMember : Nat → List Char → Option ((String × JSON) × List Char)
  | 0, _ => none
  | Nat.succ fuel, cs =>
    match skipWs cs with
    | '"' :: rest =>
      match parseStringBody (rest.length + 1) rest [] with
      | none => none
      | some (k, r) =>
        match skipWs r with
        | ':' :: r2 =>
          match parseJSONValue fuel r2 with
          | none => none
          | some (v, r3) => some ((k, v), r3)
        | _ => none
    | _ => none

/-- Members of an object after the first one: `, member`* then the
closing brace. -/
def parseObjTail : Nat → List Char → Option (List (String × JSON) × List Char)
  | 0, _ => none
  | Nat.succ fuel, cs =>
    match skipWs cs with
    | ',' :: r =>
      match parseObjMember fuel r with
      | none => none
      | some (kv, r2) =>
        match parseObjTail fuel r2 with
        | some (kvs, r3) => some (kv :: kvs, r3)
        | none => none
    | c :: r => if c == rbrace then some ([], r) else none
    | [] => none

end

/-- `JSON.parse`: parse one value and require only whitespace to remain. -/
def jsonParse (s : String) : Option JSON :=
  match parseJSONValue (2 * s.data.length + 4) s.data with
  | some (v, rest) => if skipWs rest == [] then some v else none
  | none => none

/-- Suffix of a character list starting at its first opening brace, or
`none` when it has no opening brace. First half of the regex match
`content.match(/\x7b[\s\S]*\x7d/)`: the JavaScript engine starts the match
at the leftmost position where the pattern can succeed. -/
def dropUntilBrace : List Char → Option (List Char)
  | [] => none
  | c :: cs => if c == lbrace then some (c :: cs) else dropUntilBrace cs

/-- Longest prefix of a character list ending with a closing brace, or
`none` when it contains no closing brace. Second half of the regex match:
the greedy `[\s\S]*` backtracks to the last closing brace of the input. -/
def takeThroughLastClose : List Char → Option (List Char)
  | [] => none
  | c :: rest =>
    match takeThroughLastClose rest with
    | some t => some (c :: t)
    | none => if c == rbrace then some [c] else none

/-- Character-list core of the regex match: the segment from the first
opening brace through the last closing brace after it, or `none` when no
such pair exists. -/
def jsonMatchGreedyList (cs : List Char) : Option (List Char) :=
  match dropUntilBrace cs with
  | some (c :: rest) =>
    match takeThroughLastClose rest with
    | some body => some (c :: body)
    | none => none
  | _ => none

/-- `content.match(/\x7b[\s\S]*\x7d/)`: the substring from the first
opening brace through the last closing brace after it, or `none` when no
such pair exists. -/
def jsonMatchGreedy (s : String) : Option String :=
  match jsonMatchGreedyList s.data with
  | some cs => some ⟨cs⟩
  | none => none

/-- `GeminiService.generateStoryMap` from the point where the reply text
`content` is in hand: regex span extraction, `JSON.parse`, then the
normalization pass. A parse failure surfaces as the `SyntaxError` that
`JSON.parse` throws. -/
def geminiHandleContent (content : String) : Except String NStoryMap :=
  match jsonMatchGreedy content with
  | none => Except.error "No valid JSON found in Gemini response"
  | some span =>
    match jsonParse span with
    | none => Except.error "SyntaxError"
    | some j => validateAndTransformResponse j

/-- Credential/URL holder built by the `GeminiService` constructor. -/
structure GeminiService where
  apiKey : String
  apiUrl : String

/-- Default endpoint used when no URL is configured. -/
def geminiDefaultUrl : String :=
  "https://generativelanguage.googleapis.com/v1beta/models/gemini-pro:generateContent"

/-- The string default idiom `v || d` on a possibly-absent environment
variable. -/
def jsOrStr (v : Option String) (d : String) : String :=
  match v with
  | some s => if s == "" then d else s
  | none => d

/-- The `GeminiService` constructor: reads `VITE_GEMINI_API_KEY` and
`VITE_GEMINI_API_URL` from the environment inside a try/catch. The
environment state is modelled as `Except`: `Except.error` is an environment
whose very access throws (`import.meta.env` unavailable), `Except.ok` gives
the two optional variables. -/
def mkGeminiService (env : Except String (Option String × Option String)) :
    GeminiService :=
  match env with
  | Except.ok (key, url) => ⟨jsOrStr key "", jsOrStr url geminiDefaultUrl⟩
  | Except.error _ => ⟨"", geminiDefaultUrl⟩

/-- `GeminiService.isConfigured`: `!!this.apiKey` inside a try/catch. The
field read of a constructed object cannot throw, so the catch arm is dead;
the result is the truthiness of the stored key. -/
def isConfigured (svc : GeminiService) : Bool :=
  svc.apiKey != ""

/-- `GeminiService.generateStoryMap` as a function of the service state and
the network outcome. `network` abstracts the single `fetch`:
`Except.error` is a network/HTTP failure, `Except.ok none` a reply with no
content field, `Except.ok (some text)` a reply text. The catch block
re-wraps every message thrown inside the try. -/
def geminiGenerateStoryMap (svc : GeminiService)
    (network : Except String (Option String)) : Except String NStoryMap :=
  if svc.apiKey == "" then
    Except.error "Gemini API key not found. Please add VITE_GEMINI_API_KEY to your environment variables."
  else
    match network with
    | Except.error e => Except.error ("Failed to generate story map: " ++ e)
    | Except.ok none =>
      Except.error "Failed to generate story map: No response content from Gemini API"
    | Except.ok (some content) =>
      match geminiHandleContent content with
      | Except.error e => Except.error ("Failed to generate story map: " ++ e)
      | Except.ok v => Except.ok v

/-- Canonical task shape of a `StoryMapYAML` (the TypeScript type; the
`priority` annotation is an enum in the source but carries no runtime
check, so it is a plain string here). -/
structure YTask where
  title : String
  description : String
  priority : String
  effort : String
  acceptance_criteria : List String
deriving DecidableEq

/-- Canonical feature shape. -/
structure YFeature where
  title : String
  description : String
  tasks : List YTask
deriving DecidableEq

/-- Canonical epic shape. -/
structure YEpic where
  title : String
  description : String
  features : List YFeature
deriving DecidableEq

/-- Canonical generation result. -/
structure StoryMapYAML where
  title : String
  description : String
  epics : List YEpic
deriving DecidableEq

/-- `String.prototype.toLowerCase`, characterwise on the code points. -/
def jsToLower (s : String) : String := ⟨s.data.map Char.toLower⟩

/-- Leading-segment test on character lists. -/
def leadsWith : List Char → List Char → Bool
  | [], _ => true
  | _ :: _, [] => false
  | a :: as, b :: bs => a == b && leadsWith as bs

/-- Contiguous-occurrence test on character lists. -/
def occursIn (pat : List Char) : List Char → Bool
  | [] => leadsWith pat []
  | c :: cs => leadsWith pat (c :: cs) || occursIn pat cs

/-- `String.prototype.includes`. -/
def strIncludes (s pat : String) : Bool := occursIn pat.data s.data

/-- `AIService.generateEcommerceStoryMap`: the static e-commerce template. -/
def generateEcommerceStoryMap : StoryMapYAML :=
  ⟨"E-commerce Platform",
   "A comprehensive e-commerce platform for online retail",
   [⟨"User Management", "Core user account and authentication functionality",
     [⟨"User Registration", "Allow users to create accounts",
       [⟨"Registration Form", "Create user registration form with validation",
         "high", "3 days",
         ["Form includes email, password, and name fields",
          "Email validation is implemented",
          "Password strength requirements are enforced"]⟩,
        ⟨"Email Verification", "Send verification email to new users",
         "medium", "2 days",
         ["Verification email is sent upon registration",
          "Email contains secure verification link",
          "Account is activated upon email verification"]⟩]⟩,
      ⟨"User Authentication", "Login and session management",
       [⟨"Login System", "Implement secure login functionality",
         "high", "2 days",
         ["Users can login with email and password",
          "Failed login attempts are tracked",
          "Session tokens are securely generated"]⟩]⟩]⟩,
    ⟨"Product Catalog", "Product browsing and search functionality",
     [⟨"Product Listing", "Display products in a searchable catalog",
       [⟨"Product Grid", "Create responsive product grid layout",
         "high", "4 days",
         ["Products display in responsive grid",
          "Each product shows image, title, and price",
          "Grid adapts to different screen sizes"]⟩,
        ⟨"Search Functionality", "Implement product search with filters",
         "medium", "3 days",
         ["Users can search products by name",
          "Filter by category, price, and rating",
          "Search results update in real-time"]⟩]⟩]⟩,
    ⟨"Shopping Cart", "Cart management and checkout process",
     [⟨"Cart Management", "Add, remove, and update cart items",
       [⟨"Add to Cart", "Allow users to add products to cart",
         "high", "2 days",
         ["Users can add products to cart",
          "Cart quantity is updated",
          "Cart persists across sessions"]⟩,
        ⟨"Cart Review", "Display cart contents and totals",
         "medium", "3 days",
         ["Cart shows all added items",
          "Subtotal, tax, and total are calculated",
          "Users can modify quantities or remove items"]⟩]⟩]⟩,
    ⟨"Infrastructure & Technical",
     "Technical infrastructure and non-functional requirements",
     [⟨"Security & Performance", "Security measures and performance optimization",
       [⟨"Set up SSL/TLS encryption",
         "Implement secure communication protocols for all transactions",
         "high", "2 days",
         ["All data transmission is encrypted with TLS 1.3",
          "SSL certificate is properly configured and auto-renewed",
          "Security headers (HSTS, CSP) are implemented"]⟩,
        ⟨"Implement API rate limiting",
         "Protect against abuse and ensure fair usage of resources",
         "medium", "3 days",
         ["Rate limits are enforced per user/IP (100 requests/minute)",
          "Graceful handling of rate limit exceeded with proper error messages",
          "Monitoring and alerting for rate limit violations"]⟩,
        ⟨"Set up monitoring and alerting",
         "Monitor system health, performance, and business metrics",
         "medium", "4 days",
         ["Real-time monitoring of key metrics (response time, error rate, throughput)",
          "Automated alerts for critical issues (downtime, high error rates)",
          "Performance dashboards are available for stakeholders"]⟩]⟩,
      ⟨"Data Management", "Database and data handling infrastructure",
       [⟨"Design scalable database architecture",
         "Create robust database design for horizontal scaling",
         "high", "5 days",
         ["Database supports horizontal scaling with read replicas",
          "Proper indexing strategy for optimal query performance",
          "Data backup and recovery procedures with 99.9% uptime SLA"]⟩,
        ⟨"Implement caching strategy",
         "Improve performance with intelligent caching layers",
         "medium", "3 days",
         ["Redis cache is properly configured for session and data caching",
          "Cache invalidation strategy is implemented for data consistency",
          "Performance improvement is measurable (50% reduction in response time)"]⟩,
        ⟨"Set up automated security scanning",
         "Implement continuous security vulnerability assessment",
         "medium", "2 days",
         ["Automated security scans run daily",
          "Vulnerability reports are generated and sent to security team",
          "Integration with CI/CD pipeline for security checks"]⟩]⟩]⟩]⟩

/-- `AIService.generateSocialNetworkStoryMap`: the static social-network
template. -/
def generateSocialNetworkStoryMap : StoryMapYAML :=
  ⟨"Social Network Platform",
   "A social networking platform for connecting people",
   [⟨"User Profiles", "User profile creation and management",
     [⟨"Profile Creation", "Users can create and edit their profiles",
       [⟨"Profile Setup", "Create profile setup wizard",
         "high", "4 days",
         ["Users can upload profile picture",
          "Bio and personal information can be added",
          "Profile is publicly viewable"]⟩]⟩]⟩,
    ⟨"Content Sharing", "Post and share content with connections",
     [⟨"Post Creation", "Create and share posts with text and media",
       [⟨"Text Posts", "Allow users to create text-based posts",
         "high", "3 days",
         ["Users can write and publish text posts",
          "Posts support basic formatting",
          "Posts appear in user\x27s feed"]⟩]⟩]⟩,
    ⟨"Infrastructure & Technical",
     "Technical infrastructure and non-functional requirements",
     [⟨"Security & Performance", "Security measures and performance optimization",
       [⟨"Implement user authentication framework",
         "Set up secure user authentication and authorization",
         "high", "3 days",
         ["OAuth 2.0 authentication is implemented",
          "Role-based access control (RBAC) is configured",
          "Session management with secure token handling"]⟩,
        ⟨"Set up content moderation system",
         "Implement automated content filtering and moderation",
         "medium", "4 days",
         ["Automated content filtering for inappropriate content",
          "Manual moderation tools for admin users",
          "Appeal process for flagged content"]⟩,
        ⟨"Implement real-time notifications",
         "Set up WebSocket-based real-time notification system",
         "medium", "3 days",
         ["Real-time notifications for new connections and messages",
          "Push notifications for mobile devices",
          "Notification preferences can be customized"]⟩]⟩,
      ⟨"Data Management", "Database and data handling infrastructure",
       [⟨"Design scalable media storage",
         "Implement scalable storage for user uploads and media",
         "high", "4 days",
         ["CDN integration for fast media delivery",
          "Image optimization and compression",
          "Backup and redundancy for media files"]⟩,
        ⟨"Implement search functionality",
         "Set up full-text search for users and content",
         "medium", "3 days",
         ["Elasticsearch integration for fast search",
          "Search results include users, posts, and comments",
          "Search suggestions and autocomplete functionality"]⟩]⟩]⟩]⟩

/-- `AIService.generateTaskManagementStoryMap`: the static task-management
template. -/
def generateTaskManagementStoryMap : StoryMapYAML :=
  ⟨"Task Management System",
   "A comprehensive task and project management platform",
   [⟨"Task Creation", "Create and manage individual tasks",
     [⟨"Task Setup", "Create new tasks with details and assignments",
       [⟨"Task Form", "Create task creation form with all fields",
         "high", "3 days",
         ["Form includes title, description, and due date",
          "Users can assign tasks to team members",
          "Priority levels can be set"]⟩]⟩]⟩,
    ⟨"Project Organization", "Organize tasks into projects and categories",
     [⟨"Project Management", "Create and manage project structures",
       [⟨"Project Creation", "Allow users to create new projects",
         "high", "2 days",
         ["Users can create new projects",
          "Projects can have multiple tasks",
          "Project progress is tracked"]⟩]⟩]⟩,
    ⟨"Infrastructure & Technical",
     "Technical infrastructure and non-functional requirements",
     [⟨"Security & Performance", "Security measures and performance optimization",
       [⟨"Set up role-based access control",
         "Implement granular permissions for different user roles",
         "high", "3 days",
         ["Admin, manager, and user roles are defined",
          "Permissions are granular and configurable",
          "Access control is enforced at API and UI levels"]⟩,
        ⟨"Implement audit logging",
         "Track all user actions for compliance and debugging",
         "medium", "2 days",
         ["All user actions are logged with timestamps",
          "Audit logs are searchable and exportable",
          "Sensitive operations trigger additional logging"]⟩,
        ⟨"Set up automated backups",
         "Implement reliable data backup and recovery procedures",
         "high", "2 days",
         ["Daily automated backups to secure location",
          "Backup restoration process is tested monthly",
          "Data retention policy is implemented"]⟩]⟩,
      ⟨"Data Management", "Database and data handling infrastructure",
       [⟨"Design scalable database architecture",
         "Create robust database design for task management",
         "high", "4 days",
         ["Database supports concurrent user access",
          "Proper indexing for task queries and filtering",
          "Data integrity constraints are enforced"]⟩,
        ⟨"Implement real-time collaboration",
         "Enable real-time updates for collaborative task management",
         "medium", "3 days",
         ["WebSocket connections for real-time updates",
          "Conflict resolution for simultaneous edits",
          "Presence indicators show who\x27s online"]⟩]⟩]⟩]⟩

/-- `AIService.generateGenericStoryMap`: the generic template, echoing the
input description; all other content is static. -/
def generateGenericStoryMap (productDescription : String) : StoryMapYAML :=
  ⟨"Product Application",
   productDescription,
   [⟨"Core Features", "Essential functionality for the application",
     [⟨"User Interface", "Main user interface and navigation",
       [⟨"Homepage Design", "Create the main landing page",
         "high", "5 days",
         ["Page loads quickly and is responsive",
          "Navigation is intuitive and accessible",
          "Content is well-organized and readable"]⟩,
        ⟨"User Authentication", "Implement user login and registration",
         "high", "4 days",
         ["Users can register new accounts",
          "Secure login functionality",
          "Password reset capability"]⟩]⟩]⟩,
    ⟨"Data Management", "Handle data storage and retrieval",
     [⟨"Database Design", "Design and implement database structure",
       [⟨"Schema Design", "Create database schema for the application",
         "high", "3 days",
         ["Database supports all required data types",
          "Relationships are properly defined",
          "Indexes are optimized for performance"]⟩]⟩]⟩,
    ⟨"Infrastructure & Technical",
     "Technical infrastructure and non-functional requirements",
     [⟨"Security & Performance", "Security measures and performance optimization",
       [⟨"Set up CI/CD pipeline",
         "Implement automated testing and deployment pipeline",
         "high", "3 days",
         ["Automated testing runs on every commit",
          "Deployment is automated and rollback-capable",
          "Environment-specific configurations are managed"]⟩,
        ⟨"Implement security scanning",
         "Set up automated security vulnerability assessment",
         "medium", "2 days",
         ["Automated security scans run daily",
          "Vulnerability reports are generated",
          "Integration with CI/CD pipeline"]⟩,
        ⟨"Set up monitoring and alerting",
         "Monitor application health and performance",
         "medium", "3 days",
         ["Real-time monitoring of key metrics",
          "Automated alerts for critical issues",
          "Performance dashboards are available"]⟩]⟩,
      ⟨"Data Management", "Database and data handling infrastructure",
       [⟨"Design scalable database architecture",
         "Create robust database design for the application",
         "high", "4 days",
         ["Database supports horizontal scaling",
          "Proper indexing for optimal performance",
          "Data backup and recovery procedures"]⟩,
        ⟨"Implement caching strategy",
         "Improve performance with intelligent caching",
         "medium", "2 days",
         ["Redis cache is properly configured",
          "Cache invalidation strategy is implemented",
          "Performance improvement is measurable"]⟩]⟩]⟩]⟩

/-- `AIService.generateMockStoryMap`: lower-cases the description and
dispatches on keyword presence in the source's fixed order. -/
def generateMockStoryMap (productDescription : String) : StoryMapYAML :=
  let keywords := jsToLower productDescription
  if strIncludes keywords "ecommerce" || strIncludes keywords "shop" ||
      strIncludes keywords "store" then
    generateEcommerceStoryMap
  else if strIncludes keywords "social" || strIncludes keywords "network" then
    generateSocialNetworkStoryMap
  else if strIncludes keywords "task" || strIncludes keywords "todo" then
    generateTaskManagementStoryMap
  else
    generateGenericStoryMap productDescription

/-- Internal task shape produced by `AIService.convertYAMLToStoryMap`. -/
structure STask where
  id : String
  title : String
  description : String
  type : String
  priority : String
  status : String
  acceptanceCriteria : List String
  estimatedEffort : String
  createdAt : String
  updatedAt : String
deriving DecidableEq

/-- Internal feature shape with its `order` position. -/
structure SFeature where
  id : String
  title : String
  description : String
  order : Nat
  tasks : List STask
deriving DecidableEq

/-- Internal epic shape with its `order` position. -/
structure SEpic where
  id : String
  title : String
  description : String
  order : Nat
  features : List SFeature
deriving DecidableEq

/-- Internal addressable story map. -/
structure StoryMap where
  id : String
  title : String
  description : String
  epics : List SEpic
  createdAt : String
  updatedAt : String
deriving DecidableEq

/-- Task arm of `AIService.convertYAMLToStoryMap`. `idGen` is the stream of
strings returned by the successive `generateId()` calls, indexed by call
number `k` in source evaluation order; `now` is the conversion-time
timestamp. Returns the converted list and the next call number. -/
def convertTasks (idGen : Nat → String) (now : String) :
    Nat → List YTask → List STask × Nat
  | k, [] => ([], k)
  | k, t :: ts =>
    let st : STask :=
      ⟨idGen k, t.title, t.description, "task", t.priority, "todo",
       t.acceptance_criteria, t.effort, now, now⟩
    let rest := convertTasks idGen now (k + 1) ts
    (st :: rest.1, rest.2)

/-- Feature arm of `AIService.convertYAMLToStoryMap`: the feature draws its
id, then its tasks draw theirs; `idx` is the `featureIndex` of `map`. -/
def convertFeatures (idGen : Nat → String) (now : String) :
    Nat → Nat → List YFeature → List SFeature × Nat
  | k, _, [] => ([], k)
  | k, idx, f :: fs =>
    let ts := convertTasks idGen now (k + 1) f.tasks
    let sf : SFeature := ⟨idGen k, f.title, f.description, idx, ts.1⟩
    let rest := convertFeatures idGen now ts.2 (idx + 1) fs
    (sf :: rest.1, rest.2)

/-- Epic arm of `AIService.convertYAMLToStoryMap`. -/
def convertEpics (idGen : Nat → String) (now : String) :
    Nat → Nat → List YEpic → List SEpic × Nat
  | k, _, [] => ([], k)
  | k, idx, e :: es =>
    let fs := convertFeatures idGen now (k + 1) 0 e.features
    let se : SEpic := ⟨idGen k, e.title, e.description, idx, fs.1⟩
    let rest := convertEpics idGen now fs.2 (idx + 1) es
    (se :: rest.1, rest.2)

/-- `AIService.convertYAMLToStoryMap`: the map draws id number 0, then the
epics/features/tasks draw ids in source evaluation order; every node is
stamped with the conversion-time timestamp. -/
def convertYAMLToStoryMap (idGen : Nat → String) (now : String)
    (yamlData : StoryMapYAML) : StoryMap :=
  let es := convertEpics idGen now 1 0 yamlData.epics
  ⟨idGen 0, yamlData.title, yamlData.description, es.1, now, now⟩

/-- `AIService.generateStoryMap`: dispatches on the provider selector
string (the TypeScript `switch` with a `default` arm; an omitted argument
defaults to `"mock"`), guards each client call with `isConfigured`, and
catches any thrown error, falling back to the mock generator. The client
call outcomes are abstracted as `Except` arguments. The first component of
the result is the artificial delay in milliseconds awaited on the chosen
path (the mock arm awaits 2000 ms). -/
def generateStoryMap (productDescription : String) (provider : String)
    (deepseekConfigured : Bool) (deepseekResult : Except String StoryMapYAML)
    (geminiConfigured : Bool) (geminiResult : Except String StoryMapYAML) :
    Nat × StoryMapYAML :=
  if provider == "deepseek" then
    if deepseekConfigured then
      match deepseekResult with
      | Except.ok y => (0, y)
      | Except.error _ => (0, generateMockStoryMap productDescription)
    else (0, generateMockStoryMap productDescription)
  else if provider == "gemini" then
    if geminiConfigured then
      match geminiResult with
      | Except.ok y => (0, y)
      | Except.error _ => (0, generateMockStoryMap productDescription)
    else (0, generateMockStoryMap productDescription)
  else
    (2000, generateMockStoryMap productDescription)

/-- Identifiers of a converted task list. -/
def tasksIdList : List STask → List String
  | [] => []
  | t :: ts => t.id :: tasksIdList ts

/-- Identifiers of a converted feature list, in id-draw order. -/
def featuresIdList : List SFeature → List String
  | [] => []
  | f :: fs => (f.id :: tasksIdList f.tasks) ++ featuresIdList fs

/-- Identifiers of a converted epic list, in id-draw order. -/
def epicsIdList : List SEpic → List String
  | [] => []
  | e :: es => (e.id :: featuresIdList e.features) ++ epicsIdList es

/-- All identifiers assigned within one conversion: the map id followed by
every epic, feature and task id. -/
def allIds (m : StoryMap) : List String := m.id :: epicsIdList m.epics

/-- Number of ids drawn by one feature and its tasks. -/
def yFeatureIdCount (f : YFeature) : Nat := 1 + f.tasks.length

/-- Number of ids drawn by a feature list. -/
def yFeaturesIdCount : List YFeature → Nat
  | [] => 0
  | f :: fs => yFeatureIdCount f + yFeaturesIdCount fs

/-- Number of ids drawn by one epic and its subtree. -/
def yEpicIdCount (e : YEpic) : Nat := 1 + yFeaturesIdCount e.features

/-- Number of ids drawn by an epic list. -/
def yEpicsIdCount : List YEpic → Nat
  | [] => 0
  | e :: es => yEpicIdCount e + yEpicsIdCount es

/-- Total number of `generateId()` calls made by one conversion. -/
def idCount (y : StoryMapYAML) : Nat := 1 + yEpicsIdCount y.epics

/-- Forget the fields added by the converter, task level. -/
def eraseTask (t : STask) : YTask :=
  ⟨t.title, t.description, t.priority, t.estimatedEffort, t.acceptanceCriteria⟩

/-- Forget the fields added by the converter, feature level. -/
def eraseFeature (f : SFeature) : YFeature :=
  ⟨f.title, f.description, f.tasks.map eraseTask⟩

/-- Forget the fields added by the converter, epic level. -/
def eraseEpic (e : SEpic) : YEpic :=
  ⟨e.title, e.description, e.features.map eraseFeature⟩

/-- Forget the fields added by the converter, map level. -/
def eraseStoryMap (m : StoryMap) : StoryMapYAML :=
  ⟨m.title, m.description, m.epics.map eraseEpic⟩

theorem convertTasks_snd (idGen : Nat → String) (now : String) (k : Nat)
    (ts : List YTask) : (convertTasks idGen now k ts).2 = k + ts.length := by
  induction ts generalizing k with
  | nil => simp [convertTasks]
  | cons t ts ih => simp [convertTasks, ih]; omega

theorem tasksIdList_convertTasks (idGen : Nat → String) (now : String) (k : Nat)
    (ts : List YTask) :
    tasksIdList (convertTasks idGen now k ts).1
      = (List.range' k ts.length).map idGen := by
  induction ts generalizing k with
  | nil => simp [convertTasks, tasksIdList]
  | cons t ts ih => simp [convertTasks, tasksIdList, List.range'_succ, ih]

theorem convertFeatures_snd (idGen : Nat → String) (now : String) (k idx : Nat)
    (fs : List YFeature) :
    (convertFeatures idGen now k idx fs).2 = k + yFeaturesIdCount fs := by
  induction fs generalizing k idx with
  | nil => simp [convertFeatures, yFeaturesIdCount]
  | cons f fs ih =>
    simp [convertFeatures, yFeaturesIdCount, yFeatureIdCount, ih, convertTasks_snd]
    omega

theorem featuresIdList_convertFeatures (idGen : Nat → String) (now : String)
    (k idx : Nat) (fs : List YFeature) :
    featuresIdList (convertFeatures idGen now k idx fs).1
      = (List.range' k (yFeaturesIdCount fs)).map idGen := by
  induction fs generalizing k idx with
  | nil => simp [convertFeatures, featuresIdList, yFeaturesIdCount]
  | cons f fs ih =>
    have happ := List.range'_append k (yFeatureIdCount f) (yFeaturesIdCount fs) 1
    simp only [one_mul] at happ
    simp only [convertFeatures, featuresIdList, tasksIdList, yFeaturesIdCount]
    rw [ih, tasksIdList_convertTasks, convertTasks_snd]
    rw [Nat.add_comm (yFeatureIdCount f) (yFeaturesIdCount fs), ← happ]
    simp [yFeatureIdCount, List.range'_succ, Nat.add_comm 1 f.tasks.length,
      Nat.add_assoc]

theorem convertEpics_snd (idGen : Nat → String) (now : String) (k idx : Nat)
    (es : List YEpic) :
    (convertEpics idGen now k idx es).2 = k + yEpicsIdCount es := by
  induction es generalizing k idx with
  | nil => simp [convertEpics, yEpicsIdCount]
  | cons e es ih =>
    simp [convertEpics, yEpicsIdCount, yEpicIdCount, ih, convertFeatures_snd]
    omega

theorem epicsIdList_convertEpics (idGen : Nat → String) (now : String)
    (k idx : Nat) (es : List YEpic) :
    epicsIdList (convertEpics idGen now k idx es).1
      = (List.range' k (yEpicsIdCount es)).map idGen := by
  induction es generalizing k idx with
  | nil => simp [convertEpics, epicsIdList, yEpicsIdCount]
  | cons e es ih =>
    have happ := List.range'_append k (yEpicIdCount e) (yEpicsIdCount es) 1
    simp only [one_mul] at happ
    simp only [convertEpics, epicsIdList, yEpicsIdCount]
    rw [ih, featuresIdList_convertFeatures, convertFeatures_snd]
    rw [Nat.add_comm (yEpicIdCount e) (yEpicsIdCount es), ← happ]
    simp [yEpicIdCount, List.range'_succ,
      Nat.add_comm 1 (yFeaturesIdCount e.features), Nat.add_assoc]

theorem allIds_convertYAMLToStoryMap (idGen : Nat → String) (now : String)
    (y : StoryMapYAML) :
    allIds (convertYAMLToStoryMap idGen now y)
      = (List.range' 0 (idCount y)).map idGen := by
  simp only [allIds, convertYAMLToStoryMap, idCount]
  rw [epicsIdList_convertEpics]
  rw [Nat.add_comm 1 (yEpicsIdCount y.epics)]
  have happ := List.range'_append 0 1 (yEpicsIdCount y.epics) 1
  simp only [one_mul] at happ
  rw [← happ]
  simp [List.range'_succ]

theorem convertTasks_erase (idGen : Nat → String) (now : String) (k : Nat)
    (ts : List YTask) : (convertTasks idGen now k ts).1.map eraseTask = ts := by
  induction ts generalizing k with
  | nil => simp [convertTasks]
  | cons t ts ih => simp [convertTasks, eraseTask, ih]

theorem convertFeatures_erase (idGen : Nat → String) (now : String) (k idx : Nat)
    (fs : List YFeature) :
    (convertFeatures idGen now k idx fs).1.map eraseFeature = fs := by
  induction fs generalizing k idx with
  | nil => simp [convertFeatures]
  | cons f fs ih => simp [convertFeatures, eraseFeature, ih, convertTasks_erase]

theorem convertEpics_erase (idGen : Nat → String) (now : String) (k idx : Nat)
    (es : List YEpic) :
    (convertEpics idGen now k idx es).1.map eraseEpic = es := by
  induction es generalizing k idx with
  | nil => simp [convertEpics]
  | cons e es ih => simp [convertEpics, eraseEpic, ih, convertFeatures_erase]

theorem convertFeatures_orders (idGen : Nat → String) (now : String) (k idx : Nat)
    (fs : List YFeature) :
    (convertFeatures idGen now k idx fs).1.map SFeature.order
      = List.range' idx fs.length := by
  induction fs generalizing k idx with
  | nil => simp [convertFeatures]
  | cons f fs ih => simp [convertFeatures, ih, List.range'_succ]

theorem convertEpics_orders (idGen : Nat → String) (now : String) (k idx : Nat)
    (es : List YEpic) :
    (convertEpics idGen now k idx es).1.map SEpic.order
      = List.range' idx es.length := by
  induction es generalizing k idx with
  | nil => simp [convertEpics]
  | cons e es ih => simp [convertEpics, ih, List.range'_succ]

theorem convertFeatures_length (idGen : Nat → String) (now : String) (k idx : Nat)
    (fs : List YFeature) :
    (convertFeatures idGen now k idx fs).1.length = fs.length := by
  have h := congrArg List.length (convertFeatures_erase idGen now k idx fs)
  simpa using h

theorem convertEpics_mem_features_orders (idGen : Nat → String) (now : String)
    (k idx : Nat) (es : List YEpic) :
    ∀ se ∈ (convertEpics idGen now k idx es).1,
      se.features.map SFeature.order = List.range' 0 se.features.length := by
  induction es generalizing k idx with
  | nil => simp [convertEpics]
  | cons e es ih =>
    intro se hse
    simp only [convertEpics, List.mem_cons] at hse
    cases hse with
    | inl h =>
      subst h
      simp only
      rw [convertFeatures_length]
      exact convertFeatures_orders idGen now (k + 1) 0 e.features
    | inr h => exact ih _ _ se h

theorem dropUntilBrace_eq_none (cs : List Char) :
    dropUntilBrace cs = none ↔ lbrace ∉ cs := by
  induction cs with
  | nil => simp [dropUntilBrace]
  | cons c cs ih =>
    by_cases h : c = lbrace
    · simp [dropUntilBrace, h]
    · simp [dropUntilBrace, h, ih, Ne.symm h]

theorem dropUntilBrace_eq_some (cs suf : List Char) :
    dropUntilBrace cs = some suf →
    ∃ pre rest, cs = pre ++ suf ∧ lbrace ∉ pre ∧ suf = lbrace :: rest := by
  induction cs generalizing suf with
  | nil => simp [dropUntilBrace]
  | cons c cs ih =>
    by_cases h : c = lbrace
    · subst h
      simp only [dropUntilBrace, beq_self_eq_true, if_pos, Option.some.injEq]
      intro hsuf
      exact ⟨[], cs, by simp [hsuf], by simp, hsuf.symm⟩
    · rw [show dropUntilBrace (c :: cs) = dropUntilBrace cs by
        simp [dropUntilBrace, h]]
      intro hsuf
      obtain ⟨pre, rest, h1, h2, h3⟩ := ih suf hsuf
      refine ⟨c :: pre, rest, by simp [h1], ?_, h3⟩
      simp only [List.mem_cons, not_or]
      exact ⟨fun hh => h hh.symm, h2⟩

theorem takeThroughLastClose_eq_none (cs : List Char) :
    takeThroughLastClose cs = none ↔ rbrace ∉ cs := by
  induction cs with
  | nil => simp [takeThroughLastClose]
  | cons c cs ih =>
    cases htc : takeThroughLastClose cs with
    | some t =>
      have hmem : rbrace ∈ cs := by
        by_contra hnot
        exact absurd (ih.mpr hnot) (by simp [htc])
      simp [takeThroughLastClose, htc, hmem]
    | none =>
      by_cases h : c = rbrace
      · simp [takeThroughLastClose, htc, h]
      · simp [takeThroughLastClose, htc, h, Ne.symm h]
        simpa [htc] using ih

theorem takeThroughLastClose_eq_some (cs t : List Char) :
    takeThroughLastClose cs = some t →
    ∃ t0 post, t = t0 ++ [rbrace] ∧ cs = t ++ post ∧ rbrace ∉ post := by
  induction cs generalizing t with
  | nil => simp [takeThroughLastClose]
  | cons c cs ih =>
    cases htc : takeThroughLastClose cs with
    | some t2 =>
      simp only [takeThroughLastClose, htc, Option.some.injEq]
      intro ht
      obtain ⟨t0, post, h1, h2, h3⟩ := ih t2 htc
      subst h1
      refine ⟨c :: t0, post, ?_, ?_, h3⟩
      · simp [← ht]
      · simp [← ht, h2]
    | none =>
      by_cases h : c = rbrace
      · subst h
        simp only [takeThroughLastClose, htc, beq_self_eq_true, if_pos,
          Option.some.injEq]
        intro ht
        refine ⟨[], cs, ?_, ?_, (takeThroughLastClose_eq_none cs).mp htc⟩
        · simp [← ht]
        · simp [← ht]
      · simp [takeThroughLastClose, htc, if_neg (by simpa using h)]

theorem takeThroughLastClose_isSome_of_mem (cs : List Char) (h : rbrace ∈ cs) :
    (takeThroughLastClose cs).isSome = true := by
  cases htc : takeThroughLastClose cs with
  | some t => simp
  | none => exact absurd h ((takeThroughLastClose_eq_none cs).mp htc)

theorem jsonMatchGreedyList_eq_some (cs t : List Char) :
    jsonMatchGreedyList cs = some t →
    ∃ pre mid post, cs = pre ++ t ++ post ∧ lbrace ∉ pre ∧ rbrace ∉ post
      ∧ t = lbrace :: (mid ++ [rbrace]) := by
  intro h
  unfold jsonMatchGreedyList at h
  cases hdb : dropUntilBrace cs with
  | none => rw [hdb] at h; simp at h
  | some suf =>
    rw [hdb] at h
    obtain ⟨pre, rest, hcs, hpre, hsuf⟩ := dropUntilBrace_eq_some cs suf hdb
    subst hsuf
    have h2 : (match takeThroughLastClose rest with
        | some body => some (lbrace :: body)
        | none => none) = some t := h
    clear h
    cases htc : takeThroughLastClose rest with
    | none => rw [htc] at h2; simp at h2
    | some body =>
      rw [htc] at h2
      simp only [Option.some.injEq] at h2
      have h := h2
      obtain ⟨t0, post, hbody, hrest, hpost⟩ :=
        takeThroughLastClose_eq_some rest body htc
      refine ⟨pre, t0, post, ?_, hpre, hpost, ?_⟩
      · rw [hcs, hrest, hbody, ← h, hbody]
        simp
      · rw [← h, hbody]

theorem jsonMatchGreedyList_isSome (cs : List Char)
    (h : ∃ l m r, cs = l ++ lbrace :: (m ++ rbrace :: r)) :
    (jsonMatchGreedyList cs).isSome = true := by
  obtain ⟨l, m, r, rfl⟩ := h
  induction l with
  | nil =>
    simp only [List.nil_append, jsonMatchGreedyList, dropUntilBrace,
      beq_self_eq_true, if_pos]
    cases htc : takeThroughLastClose (m ++ rbrace :: r) with
    | none =>
      have := takeThroughLastClose_isSome_of_mem (m ++ rbrace :: r) (by simp)
      rw [htc] at this
      simp at this
    | some body => simp [htc]
  | cons c l ih =>
    by_cases hc : c = lbrace
    · subst hc
      simp only [List.cons_append, jsonMatchGreedyList, dropUntilBrace,
        beq_self_eq_true, if_pos]
      cases htc : takeThroughLastClose (l ++ lbrace :: (m ++ rbrace :: r)) with
      | none =>
        have := takeThroughLastClose_isSome_of_mem
          (l ++ lbrace :: (m ++ rbrace :: r)) (by simp)
        rw [htc] at this
        simp at this
      | some body => simp [htc]
    · rw [List.cons_append,
        show jsonMatchGreedyList (c :: (l ++ lbrace :: (m ++ rbrace :: r)))
            = jsonMatchGreedyList (l ++ lbrace :: (m ++ rbrace :: r)) by
          simp [jsonMatchGreedyList, dropUntilBrace, hc]]
      exact ih

theorem jsonMatchGreedy_isSome_iff (content : String) :
    (jsonMatchGreedy content).isSome = true ↔
      ∃ l m r, content.data = l ++ lbrace :: (m ++ rbrace :: r) := by
  constructor
  · intro h
    unfold jsonMatchGreedy at h
    cases hm : jsonMatchGreedyList content.data with
    | none => rw [hm] at h; simp at h
    | some t =>
      obtain ⟨pre, mid, post, hcs, _, _, ht⟩ := jsonMatchGreedyList_eq_some _ t hm
      refine ⟨pre, mid, post, ?_⟩
      rw [hcs, ht]
      simp
  · intro h
    have hs := jsonMatchGreedyList_isSome content.data h
    unfold jsonMatchGreedy
    cases hm : jsonMatchGreedyList content.data with
    | none => rw [hm] at hs; simp at hs
    | some t => simp

/-- Is a JSON value the literal `null`? -/
def isNull : JSON → Bool
  | JSON.null => true
  | _ => false

/-- A possibly-absent field that survives the `(v || []).map(...)` idiom:
absent or falsy (then `[]` is mapped), or an array all of whose elements
satisfy `elemOk`. A truthy non-array makes `.map` throw. -/
def benignArrField (v : Option JSON) (elemOk : JSON → Bool) : Bool :=
  match v with
  | some j =>
    if truthy j then
      match j with
      | JSON.arr xs => xs.all elemOk
      | _ => false
    else true
  | none => true

/-- A feature value the normalizer handles without throwing. -/
def benignFeature (feature : JSON) : Bool :=
  !(isNull feature)
    && benignArrField (getProp feature "tasks") (fun t => !(isNull t))

/-- An epic value the normalizer handles without throwing. -/
def benignEpic (epic : JSON) : Bool :=
  !(isNull epic) && benignArrField (getProp epic "features") benignFeature

/-- The minimal-conformance test of the claim: non-`null`, truthy `title`
and `description`, `epics` an array. -/
def minimallyConforms (response : JSON) : Bool :=
  !(isNull response)
    && truthy (jsOr (getProp response "title") JSON.null)
    && truthy (jsOr (getProp response "description") JSON.null)
    && (isArrayOpt (getProp response "epics")).isSome

/-- Every epic of the `epics` array is benign. -/
def benignEpicsField (response : JSON) : Bool :=
  match isArrayOpt (getProp response "epics") with
  | some epics => epics.all benignEpic
  | none => false

theorem isOk_ok (a : α) : (Except.ok a : Except String α).isOk = true := rfl

theorem isOk_error (e : String) :
    (Except.error e : Except String α).isOk = false := rfl

theorem transformTask_isOk (task : JSON) (h : isNull task = false) :
    (transformTask task).isOk = true := by
  cases task <;> simp [isNull] at h ⊢ <;> simp [transformTask, isOk_ok]

theorem mapExc_isOk (f : JSON → Except String α) (xs : List JSON)
    (h : ∀ x ∈ xs, (f x).isOk = true) : (mapExc f xs).isOk = true := by
  induction xs with
  | nil => simp [mapExc, isOk_ok]
  | cons x xs ih =>
    have hx := h x (by simp)
    cases hfx : f x with
    | error e => rw [hfx, isOk_error] at hx; exact absurd hx (by simp)
    | ok y =>
      have hrest := ih (fun z hz => h z (by simp [hz]))
      cases hm : mapExc f xs with
      | error e => rw [hm, isOk_error] at hrest; exact absurd hrest (by simp)
      | ok ys => simp [mapExc, hfx, hm, isOk_ok]

theorem jsMapArrOr_isOk (v : Option JSON) (elemOk : JSON → Bool)
    (f : JSON → Except String α)
    (hb : benignArrField v elemOk = true)
    (hf : ∀ x, elemOk x = true → (f x).isOk = true) :
    (jsMapArr (jsOr v (JSON.arr [])) f).isOk = true := by
  cases v with
  | none => simp [jsOr, jsMapArr, mapExc, isOk_ok]
  | some j =>
    by_cases ht : truthy j = true
    · cases j with
      | arr xs =>
        simp only [benignArrField, ht, if_pos, List.all_eq_true] at hb
        simp only [jsOr, ht, if_pos, jsMapArr]
        exact mapExc_isOk f xs (fun x hx => hf x (hb x hx))
      | null => simp [truthy] at ht
      | bool b => simp [benignArrField, ht] at hb
      | num n => simp [benignArrField, ht] at hb
      | str s => simp [benignArrField, ht] at hb
      | obj fields => simp [benignArrField, ht] at hb
    · simp only [Bool.not_eq_true] at ht
      simp [jsOr, ht, jsMapArr, mapExc, isOk_ok]

theorem transformFeature_isOk (feature : JSON)
    (h : benignFeature feature = true) :
    (transformFeature feature).isOk = true := by
  simp only [benignFeature, Bool.and_eq_true, Bool.not_eq_true'] at h
  obtain ⟨hn, hb⟩ := h
  have hm := jsMapArrOr_isOk (getProp feature "tasks") (fun t => !(isNull t))
    transformTask hb (fun x hx => transformTask_isOk x (by simpa using hx))
  cases hmm : jsMapArr (jsOr (getProp feature "tasks") (JSON.arr []))
      transformTask with
  | error e => rw [hmm, isOk_error] at hm; exact absurd hm (by simp)
  | ok ts =>
    cases feature with
    | null => simp [isNull] at hn
    | bool b => simp [transformFeature, hmm, isOk_ok]
    | num n => simp [transformFeature, hmm, isOk_ok]
    | str s => simp [transformFeature, hmm, isOk_ok]
    | arr xs => simp [transformFeature, hmm, isOk_ok]
    | obj fs => simp [transformFeature, hmm, isOk_ok]

theorem transformEpic_isOk (epic : JSON) (h : benignEpic epic = true) :
    (transformEpic epic).isOk = true := by
  simp only [benignEpic, Bool.and_eq_true, Bool.not_eq_true'] at h
  obtain ⟨hn, hb⟩ := h
  have hm := jsMapArrOr_isOk (getProp epic "features") benignFeature
    transformFeature hb (fun x hx => transformFeature_isOk x hx)
  cases hmm : jsMapArr (jsOr (getProp epic "features") (JSON.arr []))
      transformFeature with
  | error e => rw [hmm, isOk_error] at hm; exact absurd hm (by simp)
  | ok fs =>
    cases epic with
    | null => simp [isNull] at hn
    | bool b => simp [transformEpic, hmm, isOk_ok]
    | num n => simp [transformEpic, hmm, isOk_ok]
    | str s => simp [transformEpic, hmm, isOk_ok]
    | arr xs => simp [transformEpic, hmm, isOk_ok]
    | obj flds => simp [transformEpic, hmm, isOk_ok]

theorem validateAndTransformResponse_isOk (response : JSON)
    (h1 : minimallyConforms response = true)
    (h2 : benignEpicsField response = true) :
    (validateAndTransformResponse response).isOk = true := by
  simp only [minimallyConforms, Bool.and_eq_true, Bool.not_eq_true'] at h1
  obtain ⟨⟨⟨hn, htitle⟩, hdesc⟩, hepics⟩ := h1
  cases hE : isArrayOpt (getProp response "epics") with
  | none => rw [hE] at hepics; simp at hepics
  | some epics =>
    have hall : epics.all benignEpic = true := by
      simp only [benignEpicsField, hE] at h2
      exact h2
    have hm := mapExc_isOk transformEpic epics
      (fun e he => transformEpic_isOk e ((List.all_eq_true.mp hall) e he))
    cases hmm : mapExc transformEpic epics with
    | error e => rw [hmm, isOk_error] at hm; exact absurd hm (by simp)
    | ok es =>
      cases response with
      | null => simp [isNull] at hn
      | bool b =>
        simp [validateAndTransformResponse, htitle, hdesc, hE, hmm, isOk_ok]
      | num n =>
        simp [validateAndTransformResponse, htitle, hdesc, hE, hmm, isOk_ok]
      | str s =>
        simp [validateAndTransformResponse, htitle, hdesc, hE, hmm, isOk_ok]
      | arr xs =>
        simp [validateAndTransformResponse, htitle, hdesc, hE, hmm, isOk_ok]
      | obj flds =>
        simp [validateAndTransformResponse, htitle, hdesc, hE, hmm, isOk_ok]

/-- C1: the orchestrator never fails. Any error thrown by the selected,
configured provider client is caught and the call returns the mock
generator's output for the same description; in particular the result of
requesting a configured-but-failing provider is identical (ignoring the
artificial delay, the first component) to the result of the mock path for
the same description, which itself is the mock generator's output. The
model is total, so no error propagates from `generateStoryMap`. -/
theorem generateStoryMap_falls_back_to_mock :
    ∀ (d : String) (dc gc : Bool) (dr gr : Except String StoryMapYAML)
      (e1 e2 : String),
      (generateStoryMap d "gemini" dc dr true (Except.error e2)).2
          = (generateStoryMap d "mock" dc dr gc gr).2
        ∧ (generateStoryMap d "deepseek" true (Except.error e1) gc gr).2
          = (generateStoryMap d "mock" dc dr gc gr).2
        ∧ (generateStoryMap d "mock" dc dr gc gr).2 = generateMockStoryMap d := by
  intro d dc gc dr gr e1 e2
  exact ⟨rfl, rfl, rfl⟩

/-- C10: a provider selector other than the known `deepseek` and `gemini`
strings (including the defaulted `mock` value used when the argument is
omitted) takes the mock path: the orchestrator awaits the fixed 2000 ms
artificial delay and returns the mock generator's output, without
throwing. -/
theorem generateStoryMap_unknown_provider_mock_path :
    ∀ (d provider : String) (dc gc : Bool) (dr gr : Except String StoryMapYAML),
      provider ≠ "deepseek" → provider ≠ "gemini" →
      generateStoryMap d provider dc dr gc gr
        = (2000, generateMockStoryMap d) := by
  intro d provider dc gc dr gr h1 h2
  simp [generateStoryMap, beq_iff_eq, h1, h2]

/-- Witness for C10 at the defaulted selector `"mock"`. -/
theorem generateStoryMap_unknown_provider_mock_path_witness :
    generateStoryMap "a chat app" "mock" true
        (Except.ok generateEcommerceStoryMap) false (Except.error "down")
      = (2000, generateMockStoryMap "a chat app") :=
  generateStoryMap_unknown_provider_mock_path "a chat app" "mock" true false
    (Except.ok generateEcommerceStoryMap) (Except.error "down")
    (by decide) (by decide)

/-- C9: `isConfigured` never throws (it is a total boolean function of the
constructed service, for every environment state including one whose very
access throws during construction), and it returns `true` exactly when the
environment yielded a non-empty credential. -/
theorem isConfigured_never_throws_iff_credential :
    ∀ env : Except String (Option String × Option String),
      isConfigured (mkGeminiService env) = true ↔
        ∃ key url, env = Except.ok (some key, url) ∧ key ≠ "" := by
  intro env
  cases env with
  | error e => simp [mkGeminiService, isConfigured]
  | ok p =>
    obtain ⟨key, url⟩ := p
    cases key with
    | none => simp [mkGeminiService, isConfigured, jsOrStr]
    | some k =>
      by_cases hk : k = ""
      · subst hk
        simp [mkGeminiService, isConfigured, jsOrStr]
      · simp only [mkGeminiService, isConfigured, jsOrStr,
          if_neg (by simpa using hk)]
        simp [hk]

/-- C6: template selection lower-cases the description and tests the
keyword sets in the fixed priority order e-commerce, social, task
management; the earliest matching set wins. -/
theorem generateMockStoryMap_keyword_priority_selection :
    ∀ d : String,
      ((["ecommerce", "shop", "store"].any fun kw =>
          strIncludes (jsToLower d) kw) = true →
        generateMockStoryMap d = generateEcommerceStoryMap)
      ∧ ((["ecommerce", "shop", "store"].any fun kw =>
          strIncludes (jsToLower d) kw) = false →
        (["social", "network"].any fun kw =>
          strIncludes (jsToLower d) kw) = true →
        generateMockStoryMap d = generateSocialNetworkStoryMap)
      ∧ ((["ecommerce", "shop", "store"].any fun kw =>
          strIncludes (jsToLower d) kw) = false →
        (["social", "network"].any fun kw =>
          strIncludes (jsToLower d) kw) = false →
        (["task", "todo"].any fun kw => strIncludes (jsToLower d) kw) = true →
        generateMockStoryMap d = generateTaskManagementStoryMap) := by
  intro d
  refine ⟨?_, ?_, ?_⟩
  · intro h1
    simp only [List.any_cons, List.any_nil, Bool.or_false, Bool.or_eq_true] at h1
    unfold generateMockStoryMap
    rcases h1 with h | h | h <;> simp [h]
  · intro h1 h2
    simp only [List.any_cons, List.any_nil, Bool.or_false,
      Bool.or_eq_false_iff] at h1
    simp only [List.any_cons, List.any_nil, Bool.or_false, Bool.or_eq_true] at h2
    obtain ⟨he, hs, hst⟩ := h1
    unfold generateMockStoryMap
    rcases h2 with h | h <;> simp [he, hs, hst, h]
  · intro h1 h2 h3
    simp only [List.any_cons, List.any_nil, Bool.or_false,
      Bool.or_eq_false_iff] at h1 h2
    simp only [List.any_cons, List.any_nil, Bool.or_false, Bool.or_eq_true] at h3
    obtain ⟨he, hs, hst⟩ := h1
    obtain ⟨hso, hn⟩ := h2
    unfold generateMockStoryMap
    rcases h3 with h | h <;> simp [he, hs, hst, hso, hn, h]

/-- Witness for C6: one concrete description per category, including a
mixed-case description containing keywords of two categories, resolved in
priority order. -/
theorem generateMockStoryMap_keyword_priority_selection_witness :
    generateMockStoryMap "My SHOP with a social feed"
        = generateEcommerceStoryMap
      ∧ generateMockStoryMap "A SOCIAL app" = generateSocialNetworkStoryMap
      ∧ generateMockStoryMap "simple TODO list"
        = generateTaskManagementStoryMap :=
  ⟨(generateMockStoryMap_keyword_priority_selection
      "My SHOP with a social feed").1 (by decide),
   (generateMockStoryMap_keyword_priority_selection
      "A SOCIAL app").2.1 (by decide) (by decide),
   (generateMockStoryMap_keyword_priority_selection
      "simple TODO list").2.2 (by decide) (by decide) (by decide)⟩

/-- C7: a description matching no keyword set yields the generic template:
the `description` field echoes the input exactly, the title is the fixed
generic label, and every other part of the result is static (independent
of the input). -/
theorem generateMockStoryMap_generic_fallback :
    ∀ d : String,
      (["ecommerce", "shop", "store", "social", "network", "task", "todo"].all
          fun kw => !strIncludes (jsToLower d) kw) = true →
      generateMockStoryMap d = generateGenericStoryMap d
        ∧ (generateMockStoryMap d).description = d
        ∧ (generateMockStoryMap d).title = "Product Application"
        ∧ (generateMockStoryMap d).epics = (generateGenericStoryMap "").epics := by
  intro d h
  simp only [List.all_cons, List.all_nil, Bool.and_true, Bool.and_eq_true,
    Bool.not_eq_true'] at h
  obtain ⟨h1, h2, h3, h4, h5, h6, h7⟩ := h
  have hmock : generateMockStoryMap d = generateGenericStoryMap d := by
    unfold generateMockStoryMap
    simp [h1, h2, h3, h4, h5, h6, h7]
  exact ⟨hmock, by rw [hmock]; rfl, by rw [hmock]; rfl, by rw [hmock]; rfl⟩

/-- Witness for C7 at a keyword-free description. -/
theorem generateMockStoryMap_generic_fallback_witness :
    generateMockStoryMap "a recipe collection"
        = generateGenericStoryMap "a recipe collection"
      ∧ (generateMockStoryMap "a recipe collection").description
        = "a recipe collection"
      ∧ (generateMockStoryMap "a recipe collection").title
        = "Product Application"
      ∧ (generateMockStoryMap "a recipe collection").epics
        = (generateGenericStoryMap "").epics :=
  generateMockStoryMap_generic_fallback "a recipe collection" (by decide)

/-- C8: the converter assigns to each epic and each feature an `order`
equal to its zero-based index in its parent sequence (a contiguous
zero-based range matching input order), and it preserves the numbers,
sequence order and content of epics, features and tasks (erasing the added
fields gives back the input). -/
theorem convertYAMLToStoryMap_orders_and_structure :
    ∀ (idGen : Nat → String) (now : String) (y : StoryMapYAML),
      eraseStoryMap (convertYAMLToStoryMap idGen now y) = y
        ∧ (convertYAMLToStoryMap idGen now y).epics.map SEpic.order
            = List.range y.epics.length
        ∧ ∀ se ∈ (convertYAMLToStoryMap idGen now y).epics,
            se.features.map SFeature.order = List.range se.features.length := by
  intro idGen now y
  refine ⟨?_, ?_, ?_⟩
  · cases y
    simp [convertYAMLToStoryMap, eraseStoryMap, convertEpics_erase]
  · rw [List.range_eq_range']
    exact convertEpics_orders idGen now 1 0 y.epics
  · intro se hse
    rw [List.range_eq_range']
    exact convertEpics_mem_features_orders idGen now 1 0 y.epics se hse

/-- Witness for C8, instantiating the per-epic order clause at a concrete
conversion. -/
theorem convertYAMLToStoryMap_orders_and_structure_witness :
    (SEpic.mk "i" "E" "" 0 []).features.map SFeature.order
      = List.range (SEpic.mk "i" "E" "" 0 []).features.length :=
  (convertYAMLToStoryMap_orders_and_structure (fun _ => "i") "2024"
      ⟨"T", "D", [⟨"E", "", []⟩]⟩).2.2 (SEpic.mk "i" "E" "" 0 []) (by decide)

/-- C5 (amended): the identifiers assigned within one conversion are
pairwise distinct provided the successive `generateId()` draws used by
that conversion are pairwise distinct. The source draws each id from
`Math.random().toString(36).substr(2, 9)`, which makes no uniqueness
guarantee, so distinctness of the draws is a genuine extra hypothesis. -/
theorem convertYAMLToStoryMap_ids_nodup_of_distinct_draws :
    ∀ (idGen : Nat → String) (now : String) (y : StoryMapYAML),
      ((List.range (idCount y)).map idGen).Nodup →
      (allIds (convertYAMLToStoryMap idGen now y)).Nodup := by
  intro idGen now y h
  rw [allIds_convertYAMLToStoryMap]
  rwa [List.range_eq_range'] at h

/-- Witness for C5 (amended) with an injective draw stream. -/
theorem convertYAMLToStoryMap_ids_nodup_of_distinct_draws_witness :
    ((List.range (idCount ⟨"T", "D",
        [⟨"E", "", [⟨"F", "", [⟨"K", "", "high", "1 day", ["a"]⟩]⟩]⟩]⟩)).map
      (fun n => String.mk (List.replicate n 'a'))).Nodup
    ∧ (allIds (convertYAMLToStoryMap
        (fun n => String.mk (List.replicate n 'a')) "2024"
        ⟨"T", "D", [⟨"E", "", [⟨"F", "", [⟨"K", "", "high", "1 day",
          ["a"]⟩]⟩]⟩]⟩)).Nodup :=
  ⟨by decide,
   convertYAMLToStoryMap_ids_nodup_of_distinct_draws
     (fun n => String.mk (List.replicate n 'a')) "2024"
     ⟨"T", "D", [⟨"E", "", [⟨"F", "", [⟨"K", "", "high", "1 day", ["a"]⟩]⟩]⟩]⟩
     (by decide)⟩

/-- C5 counterexample: the draws come from `Math.random()`, which may
repeat; on a repeating draw stream a conversion with two nodes assigns the
same identifier twice, so the claimed unconditional pairwise distinctness
fails. -/
theorem convertYAMLToStoryMap_ids_collide_on_constant_stream :
    ¬ (allIds (convertYAMLToStoryMap (fun _ => "a1b2c3d4e")
        "2024-01-01T00:00:00.000Z" ⟨"Title", "Desc", [⟨"Epic", "", []⟩]⟩)).Nodup := by
  decide

/-- C2 counterexample: a parsed response whose task carries the out-of-enum
priority `"urgent"` normalizes with priority `"urgent"` preserved (the
source computes `task.priority || 'medium'`, and a truthy string passes
through), not coerced to `"medium"` as claimed. -/
theorem validateAndTransformResponse_priority_urgent_preserved :
    validateAndTransformResponse
        (JSON.obj [("title", JSON.str "T"), ("description", JSON.str "D"),
          ("epics", JSON.arr [JSON.obj [("features", JSON.arr [JSON.obj
            [("tasks", JSON.arr [JSON.obj
              [("priority", JSON.str "urgent")]])]])]])])
      = Except.ok ⟨JSON.str "T", JSON.str "D",
          [⟨JSON.str "Untitled Epic", JSON.str "",
            [⟨JSON.str "Untitled Feature", JSON.str "",
              [⟨JSON.str "Untitled Task", JSON.str "", JSON.str "urgent",
                JSON.str "2 days",
                [JSON.str "Acceptance criteria not specified"]⟩]⟩]⟩]⟩
      ∧ JSON.str "urgent" ≠ JSON.str "medium" := by
  constructor
  · rfl
  · simp

/-- C2 (amended): the normalization pass coerces a task's priority to
`"medium"` exactly when the `priority` field is absent or falsy (missing,
`null`, `false`, `0` or the empty string); a present truthy value — of any
content, including out-of-enum strings — passes through unchanged, so the
normalized priority is not guaranteed to lie in the three-value enum. -/
theorem transformTask_priority_default_only_when_falsy :
    ∀ task : JSON, isNull task = false →
      ((getProp task "priority" = none →
          ∃ nt, transformTask task = Except.ok nt
            ∧ nt.priority = JSON.str "medium")
        ∧ (∀ v, getProp task "priority" = some v → truthy v = false →
            ∃ nt, transformTask task = Except.ok nt
              ∧ nt.priority = JSON.str "medium")
        ∧ (∀ v, getProp task "priority" = some v → truthy v = true →
            ∃ nt, transformTask task = Except.ok nt ∧ nt.priority = v)) := by
  intro task hn
  refine ⟨?_, ?_, ?_⟩
  · intro hp
    cases task <;> first
      | exact ⟨_, rfl, by simp [jsOr, hp]⟩
      | simp [isNull] at hn
  · intro v hp hv
    cases task <;> first
      | exact ⟨_, rfl, by simp [jsOr, hp, hv]⟩
      | simp [isNull] at hn
  · intro v hp hv
    cases task <;> first
      | exact ⟨_, rfl, by simp [jsOr, hp, hv]⟩
      | simp [isNull] at hn

/-- Witness for C2 (amended): a truthy out-of-enum priority is preserved
and a missing priority defaults to `"medium"`. -/
theorem transformTask_priority_default_only_when_falsy_witness :
    (∃ nt, transformTask (JSON.obj [("priority", JSON.str "urgent")])
        = Except.ok nt ∧ nt.priority = JSON.str "urgent")
      ∧ (∃ nt, transformTask (JSON.obj []) = Except.ok nt
        ∧ nt.priority = JSON.str "medium") :=
  ⟨(transformTask_priority_default_only_when_falsy
      (JSON.obj [("priority", JSON.str "urgent")]) rfl).2.2
      (JSON.str "urgent") rfl rfl,
   (transformTask_priority_default_only_when_falsy (JSON.obj []) rfl).1 rfl⟩

/-- C3 counterexample: a minimally conforming response (truthy `title` and
`description`, `epics` an array) whose epic carries a truthy non-array
`features` value makes the normalization pass throw a `TypeError` — the
source computes `(epic.features || []).map(...)`, and `||` does not turn a
truthy non-array into an empty list. -/
theorem validateAndTransformResponse_throws_on_truthy_nonarray_features :
    minimallyConforms
        (JSON.obj [("title", JSON.str "T"), ("description", JSON.str "D"),
          ("epics", JSON.arr [JSON.obj [("features", JSON.str "oops")]])])
      = true
    ∧ validateAndTransformResponse
        (JSON.obj [("title", JSON.str "T"), ("description", JSON.str "D"),
          ("epics", JSON.arr [JSON.obj [("features", JSON.str "oops")]])])
      = Except.error typeErrorMsg := ⟨rfl, rfl⟩

/-- C3 (amended): once JSON parsing has succeeded and the response
minimally conforms, the normalization pass succeeds provided every
`features`/`tasks` field is absent, falsy, or an array (of non-`null`
elements); an absent or falsy `features`/`tasks` field is treated as an
empty list, a missing `acceptance_criteria` is replaced by the one-element
placeholder list, and missing string fields get their documented defaults.
A truthy non-array `features`/`tasks` value, or a `null` element where an
object is expected, instead throws a `TypeError` (see the
counterexample). -/
theorem validateAndTransformResponse_total_on_benign_input :
    (∀ response, minimallyConforms response = true →
      benignEpicsField response = true →
      (validateAndTransformResponse response).isOk = true)
    ∧ (∀ epic, isNull epic = false → getProp epic "features" = none →
        transformEpic epic = Except.ok
          ⟨jsOr (getProp epic "title") (JSON.str "Untitled Epic"),
           jsOr (getProp epic "description") (JSON.str ""), []⟩)
    ∧ (∀ epic v, isNull epic = false → getProp epic "features" = some v →
        truthy v = false →
        transformEpic epic = Except.ok
          ⟨jsOr (getProp epic "title") (JSON.str "Untitled Epic"),
           jsOr (getProp epic "description") (JSON.str ""), []⟩)
    ∧ (∀ feature, isNull feature = false → getProp feature "tasks" = none →
        transformFeature feature = Except.ok
          ⟨jsOr (getProp feature "title") (JSON.str "Untitled Feature"),
           jsOr (getProp feature "description") (JSON.str ""), []⟩)
    ∧ transformTask (JSON.obj []) = Except.ok
        ⟨JSON.str "Untitled Task", JSON.str "", JSON.str "medium",
         JSON.str "2 days", [JSON.str "Acceptance criteria not specified"]⟩ := by
  refine ⟨validateAndTransformResponse_isOk, ?_, ?_, ?_, rfl⟩
  · intro epic hn hp
    cases epic with
    | null => simp [isNull] at hn
    | bool b => simp [transformEpic, jsOr, hp, jsMapArr, mapExc]
    | num n => simp [transformEpic, jsOr, hp, jsMapArr, mapExc]
    | str s => simp [transformEpic, jsOr, hp, jsMapArr, mapExc]
    | arr xs => simp [transformEpic, jsOr, hp, jsMapArr, mapExc]
    | obj flds => simp [transformEpic, jsOr, hp, jsMapArr, mapExc]
  · intro epic v hn hp hv
    cases epic with
    | null => simp [isNull] at hn
    | bool b => simp [transformEpic, jsOr, hp, hv, jsMapArr, mapExc]
    | num n => simp [transformEpic, jsOr, hp, hv, jsMapArr, mapExc]
    | str s => simp [transformEpic, jsOr, hp, hv, jsMapArr, mapExc]
    | arr xs => simp [transformEpic, jsOr, hp, hv, jsMapArr, mapExc]
    | obj flds => simp [transformEpic, jsOr, hp, hv, jsMapArr, mapExc]
  · intro feature hn hp
    cases feature with
    | null => simp [isNull] at hn
    | bool b => simp [transformFeature, jsOr, hp, jsMapArr, mapExc]
    | num n => simp [transformFeature, jsOr, hp, jsMapArr, mapExc]
    | str s => simp [transformFeature, jsOr, hp, jsMapArr, mapExc]
    | arr xs => simp [transformFeature, jsOr, hp, jsMapArr, mapExc]
    | obj flds => simp [transformFeature, jsOr, hp, jsMapArr, mapExc]

/-- Witness for C3 (amended): the totality clause applied to a concrete
minimally conforming response whose epic omits `features`. -/
theorem validateAndTransformResponse_total_on_benign_input_witness :
    (validateAndTransformResponse
        (JSON.obj [("title", JSON.str "T"), ("description", JSON.str "D"),
          ("epics", JSON.arr [JSON.obj [("title", JSON.str "E")]])])).isOk
      = true :=
  validateAndTransformResponse_total_on_benign_input.1
    (JSON.obj [("title", JSON.str "T"), ("description", JSON.str "D"),
      ("epics", JSON.arr [JSON.obj [("title", JSON.str "E")]])]) rfl rfl

/-- C4 counterexample: a reply that wraps valid JSON in prose containing a
later closing brace. The first balanced span `\x7b"a": 1\x7d` parses, yet the
client fails: the regex `/\x7b[\s\S]*\x7d/` is greedy, extracting from the
first opening brace to the last closing brace, so the extracted span
`\x7b"a": 1\x7d end\x7d` is not JSON and `JSON.parse` throws. -/
theorem geminiHandleContent_misses_first_balanced_span :
    jsonParse "\x7b\"a\": 1\x7d" = some (JSON.obj [("a", JSON.num 1)])
      ∧ jsonMatchGreedy "see \x7b\"a\": 1\x7d end\x7d"
          = some "\x7b\"a\": 1\x7d end\x7d"
      ∧ geminiHandleContent "see \x7b\"a\": 1\x7d end\x7d"
          = Except.error "SyntaxError" := ⟨rfl, rfl, rfl⟩

/-- C4 (amended): the client extracts the span from the first opening
brace through the last closing brace of the reply (the greedy regex
match), not the first balanced span; it fails when no such span exists or
when the extracted span does not parse as JSON, and otherwise normalizes
the parsed object. -/
theorem geminiHandleContent_greedy_extraction :
    ∀ content : String,
      ((jsonMatchGreedy content).isSome = true ↔
        ∃ l m r, content.data = l ++ lbrace :: (m ++ rbrace :: r))
      ∧ (jsonMatchGreedy content = none →
          geminiHandleContent content
            = Except.error "No valid JSON found in Gemini response")
      ∧ (∀ span, jsonMatchGreedy content = some span →
          (∃ pre mid post, content.data = pre ++ span.data ++ post
            ∧ lbrace ∉ pre ∧ rbrace ∉ post
            ∧ span.data = lbrace :: (mid ++ [rbrace]))
          ∧ (jsonParse span = none →
              geminiHandleContent content = Except.error "SyntaxError")
          ∧ (∀ j, jsonParse span = some j →
              geminiHandleContent content = validateAndTransformResponse j)) := by
  intro content
  refine ⟨jsonMatchGreedy_isSome_iff content, ?_, ?_⟩
  · intro hnone
    simp [geminiHandleContent, hnone]
  · intro span hspan
    refine ⟨?_, ?_, ?_⟩
    · unfold jsonMatchGreedy at hspan
      cases hm : jsonMatchGreedyList content.data with
      | none => rw [hm] at hspan; simp at hspan
      | some cs =>
        rw [hm] at hspan
        simp only [Option.some.injEq] at hspan
        obtain ⟨pre, mid, post, hcs, hpre, hpost, hts⟩ :=
          jsonMatchGreedyList_eq_some content.data cs hm
        subst hspan
        exact ⟨pre, mid, post, by rw [hcs], hpre, hpost, hts⟩
    · intro hp
      simp [geminiHandleContent, hspan, hp]
    · intro j hp
      simp [geminiHandleContent, hspan, hp]

/-- Witness for C4 (amended): a prose-wrapped reply whose greedy span
parses, normalized as the parsed object. -/
theorem geminiHandleContent_greedy_extraction_witness :
    geminiHandleContent "reply: \x7b\"title\": \"T\"\x7d"
      = validateAndTransformResponse (JSON.obj [("title", JSON.str "T")]) :=
  (((geminiHandleContent_greedy_extraction "reply: \x7b\"title\": \"T\"\x7d").2.2
      "\x7b\"title\": \"T\"\x7d" rfl).2.2) (JSON.obj [("title", JSON.str "T")]) rfl
